import Mathlib

/-
Verification of the Smart-DCA core of the hold-analyzer repository.

The embedding models the two core modules:
  * `app/services/technical_analysis.py` (indicator engine + signal detector)
  * `app/services/dca_calculator.py`     (allocation engine + result aggregator)

All floats are modelled as exact rationals (`ℚ`).  Python's `round(x, d)`
(round half to even) is modelled by `pyRound`.  NaN-valued indicator cells
are modelled by `Option ℚ` fields, matching the `pd.notna` guards of the
source.
-/

namespace DCA

/-- Round half to even on rationals, the tie-breaking rule of Python's
built-in `round` applied to an exact value. -/
def pyRoundInt (x : ℚ) : ℤ :=
  let f : ℤ := ⌊x⌋
  let r : ℚ := x - (f : ℚ)
  if r < 1/2 then f
  else if 1/2 < r then f + 1
  else if 2 ∣ f then f else f + 1

/-- Python `round(x, d)`: round `x` to `d` decimal places, ties to even. -/
def pyRound (x : ℚ) (d : ℕ) : ℚ :=
  (pyRoundInt (x * ((10 ^ d : ℕ) : ℚ)) : ℚ) / ((10 ^ d : ℕ) : ℚ)

/-- One augmented daily price bar, the row consumed by `detect_boom_range`.
`month` is the linearised calendar month (`year * 12 + month`) and `day`
the day inside that month, so date order is lexicographic on
`(month, day)`.  Indicator fields are `Option ℚ`: `none` models a NaN cell
(insufficient history), which the source guards with `pd.notna`. -/
structure Bar where
  month : ℕ
  day : ℕ
  close : ℚ
  price_vs_ma20 : Option ℚ
  price_vs_ma50 : Option ℚ
  rsi : Option ℚ
  price_drop_7d : Option ℚ
  price_drop_30d : Option ℚ
deriving DecidableEq, Repr, Inhabited

/-- The reason fragments produced by `detect_boom_range`; the Python code
renders each as a formatted string, we keep the fired condition together
with the measured value. -/
inductive Reason where
  | belowMa20 (v : ℚ)
  | belowMa50 (v : ℚ)
  | rsiVeryOversold (v : ℚ)
  | rsiOversold (v : ℚ)
  | drop7d (v : ℚ)
  | drop30d (v : ℚ)
deriving DecidableEq, Repr

/-- Result triple of `detect_boom_range`.  An empty `reasons` list models
the fixed "No boom signals" sentinel string. -/
structure BoomSignal where
  is_boom : Bool
  reasons : List Reason
  strength : ℚ
deriving DecidableEq, Repr

/-- `detect_boom_range` from `app/services/technical_analysis.py`
(lines 45-90): evaluate the five dip conditions in order, append a reason
and add points for each hit; the `pd.notna` guards are the `Option`
matches; `is_boom` holds iff the summed strength reaches 40. -/
def detect_boom_range (row : Bar) : BoomSignal :=
  let s0 : List Reason × ℚ := ([], 0)
  let s1 : List Reason × ℚ := match row.price_vs_ma20 with
    | some v => if v < -5 then (s0.1 ++ [Reason.belowMa20 v], s0.2 + 25) else s0
    | none => s0
  let s2 : List Reason × ℚ := match row.price_vs_ma50 with
    | some v => if v < -10 then (s1.1 ++ [Reason.belowMa50 v], s1.2 + 30) else s1
    | none => s1
  let s3 : List Reason × ℚ := match row.rsi with
    | some v =>
        if v < 30 then (s2.1 ++ [Reason.rsiVeryOversold v], s2.2 + 30)
        else if v < 40 then (s2.1 ++ [Reason.rsiOversold v], s2.2 + 15)
        else s2
    | none => s2
  let s4 : List Reason × ℚ := match row.price_drop_7d with
    | some v => if v < -10 then (s3.1 ++ [Reason.drop7d v], s3.2 + 20) else s3
    | none => s3
  let s5 : List Reason × ℚ := match row.price_drop_30d with
    | some v => if v < -20 then (s4.1 ++ [Reason.drop30d v], s4.2 + 25) else s4
    | none => s4
  { is_boom := decide (s5.2 ≥ 40), reasons := s5.1, strength := s5.2 }

/-- Spec-side scoring: the five contributions summed independently, an
undefined input contributing 0 (spec section 4.2). -/
def specStrength (row : Bar) : ℚ :=
  (match row.price_vs_ma20 with | some v => if v < -5 then 25 else 0 | none => 0)
  + (match row.price_vs_ma50 with | some v => if v < -10 then 30 else 0 | none => 0)
  + (match row.rsi with
     | some v => if v < 30 then 30 else if v < 40 then 15 else 0
     | none => 0)
  + (match row.price_drop_7d with | some v => if v < -10 then 20 else 0 | none => 0)
  + (match row.price_drop_30d with | some v => if v < -20 then 25 else 0 | none => 0)

/-- Spec-side count of fired conditions: an undefined input fires no
condition and hence contributes no reason text. -/
def specFiredCount (row : Bar) : ℕ :=
  (match row.price_vs_ma20 with | some v => if v < -5 then 1 else 0 | none => 0)
  + (match row.price_vs_ma50 with | some v => if v < -10 then 1 else 0 | none => 0)
  + (match row.rsi with
     | some v => if v < 30 then 1 else if v < 40 then 1 else 0
     | none => 0)
  + (match row.price_drop_7d with | some v => if v < -10 then 1 else 0 | none => 0)
  + (match row.price_drop_30d with | some v => if v < -20 then 1 else 0 | none => 0)

/-! ## Indicator engine (RSI pipeline of `calculate_technical_indicators`) -/

/-- Successive differences against a running previous value. -/
def diffsFrom (prev : ℚ) : List ℚ → List (Option ℚ)
  | [] => []
  | cur :: rest => some (cur - prev) :: diffsFrom cur rest

/-- `df['close'].diff()`: `none` (NaN) at the first bar, then successive
differences. -/
def diffs : List ℚ → List (Option ℚ)
  | [] => []
  | c :: tail => none :: diffsFrom c tail

/-- `delta.where(delta > 0, 0)`: keep positive deltas, everything else
(including the NaN first entry, which compares false) becomes 0. -/
def gains (closes : List ℚ) : List ℚ :=
  (diffs closes).map (fun d => match d with | some v => if 0 < v then v else 0 | none => 0)

/-- `(-delta.where(delta < 0, 0))`: magnitude of negative deltas, 0
elsewhere (including the NaN first entry). -/
def losses (closes : List ℚ) : List ℚ :=
  (diffs closes).map (fun d => match d with | some v => if v < 0 then -v else 0 | none => 0)

/-- `rolling(window=w, min_periods=1).mean()` evaluated at index `i`: the
mean of the trailing at-most-`w` entries ending at `i`. -/
def rollingMeanAt (xs : List ℚ) (w i : ℕ) : ℚ :=
  let win := (xs.take (i + 1)).drop (i + 1 - w)
  win.sum / (win.length : ℚ)

/-- RSI at bar `i` per `calculate_technical_indicators` (lines 23-28):
`rs = gain / loss; rsi = 100 - 100 / (1 + rs)` under IEEE float semantics.
A zero `loss` with positive `gain` makes `rs = +inf` and the expression
collapses to `100`; a zero `loss` with zero `gain` makes `rs` NaN and the
cell NaN (`none`). -/
def rsiAt (closes : List ℚ) (i : ℕ) : Option ℚ :=
  let gain := rollingMeanAt (gains closes) 14 i
  let loss := rollingMeanAt (losses closes) 14 i
  if loss = 0 then (if 0 < gain then some 100 else none)
  else some (100 - 100 / (1 + gain / loss))

/-! ## Allocation engine data model (`dca_calculator.py`) -/

/-- One strategy profile's configuration (`PROFILE_CONFIG` values). -/
structure Cfg where
  min_signal_strength : ℚ
  fallback_threshold : ℚ
  tiered_base : ℚ
  tiered_bonus : ℚ
  tiered_floor : ℚ
  fallback_fraction : ℚ
deriving DecidableEq, Repr

def aggressiveConfig : Cfg := ⟨30, 0.97, 0.50, 0.45, 0.35, 0.60⟩

def balancedConfig : Cfg := ⟨40, 0.95, 0.45, 0.45, 0.30, 0.50⟩

def conservativeConfig : Cfg := ⟨55, 0.93, 0.35, 0.40, 0.25, 0.40⟩

def aggressiveName : String := "aggressive"

def balancedName : String := "balanced"

def conservativeName : String := "conservative"

def fullModeName : String := "full"

def tieredModeName : String := "tiered"

def boomTypeName : String := "boom_range"

def fallbackTypeName : String := "fallback"

/-- `PROFILE_CONFIG` as a partial lookup by profile name. -/
def PROFILE_CONFIG (name : String) : Option Cfg :=
  if name = aggressiveName then some aggressiveConfig
  else if name = balancedName then some balancedConfig
  else if name = conservativeName then some conservativeConfig
  else none

def DEFAULT_PROFILE : String := balancedName

/-- The caller-supplied `strategy` dict: every key optional. -/
structure Strategy where
  strategy_profile : Option String
  allocation_mode : Option String
  min_signal_strength : Option ℚ
  min_trade_amount : Option ℚ
  fallback_threshold : Option ℚ
deriving DecidableEq, Repr

/-- Python truthiness fallback `x or y` on an optional float: both `None`
and `0.0` fall through to `y`. -/
def pyOr (x : Option ℚ) (y : ℚ) : ℚ :=
  match x with
  | some v => if v = 0 then y else v
  | none => y

/-- The detailed reason attached to a trade: a boom reason list or the
fallback "Monthly dip (x% below avg)" text, kept as the raw percentage. -/
inductive TradeReason where
  | boom (reasons : List Reason)
  | dip (pctBelowAvg : ℚ)
deriving DecidableEq, Repr

/-- One executed purchase, mirroring the `trade` dict (lines 192-209).
`trade_date` is the `(month, day)` index of the chosen bar. -/
structure Trade where
  trade_date : ℕ × ℕ
  month : ℕ
  entry_price : ℚ
  amount_invested : ℚ
  shares_bought : ℚ
  total_shares_after : ℚ
  signal_strength : Option ℚ
  signal_reason : Option TradeReason
  trade_type : Option String
  accumulated_budget_used : ℚ
  current_price : ℚ
  current_value : ℚ
  profit_loss : ℚ
  profit_loss_percent : ℚ
  allocation_fraction : ℚ
  signal_threshold : ℚ
deriving DecidableEq, Repr, Inhabited

/-- One monthly ledger entry (the `monthly_summaries` items). -/
structure MonthSummary where
  month : ℕ
  traded : Bool
  trade : Option Trade
  accumulated_budget : ℚ
  monthly_budget : ℚ
  allocation_fraction : Option ℚ
deriving DecidableEq, Repr

/-- The mutable loop state of `calculate_smart_dca`. -/
structure RunState where
  total_shares : ℚ
  total_invested : ℚ
  accumulated_budget : ℚ
  months_waited : ℕ
  months_bought : ℕ
  trades : List Trade
  monthly_summary : List MonthSummary
deriving DecidableEq, Repr

def initialState : RunState := ⟨0, 0, 0, 0, 0, [], []⟩

/-- The per-run constants threaded through the month loop. -/
structure Params where
  bars : List Bar
  monthly_amount : ℚ
  allocation_mode : String
  profile_cfg : Cfg
  min_signal_strength : ℚ
  min_trade_amount : ℚ
  fallback_threshold : ℚ
  current_price : ℚ
deriving DecidableEq, Repr

/-- The buy-candidate variables of one month iteration (lines 115-119):
`best_buy` bundles `best_buy_day` (as a `(month, day)` index) with
`best_buy_price`, which the source sets and clears in lockstep. -/
structure Candidate where
  best_buy : Option (ℕ × ℕ × ℚ)
  best_signal_strength : ℚ
  best_signal_reason : Option TradeReason
  trade_type : Option String
deriving DecidableEq, Repr

/-- One step of the boom-range scan (the body of the loop at lines
121-129): replace the running best when the row is a boom with strictly
greater strength. -/
def scanStep (c : Candidate) (row : Bar) : Candidate :=
  let sig := detect_boom_range row
  if sig.is_boom ∧ sig.strength > c.best_signal_strength then
    { best_buy := some (row.month, row.day, row.close),
      best_signal_strength := sig.strength,
      best_signal_reason := some (TradeReason.boom sig.reasons),
      trade_type := some boomTypeName }
  else c

/-- The initial candidate of a month (lines 115-119). -/
def initCandidate : Candidate :=
  { best_buy := none, best_signal_strength := 0, best_signal_reason := none,
    trade_type := none }

/-- The boom-range scan (lines 121-129): keep the bar with the strictly
greatest boom strength, first-seen winning ties. -/
def scanBoom (rows : List Bar) : Candidate :=
  rows.foldl scanStep initCandidate

/-- `month_data['close'].idxmin()`: the first bar attaining the minimal
close, in index order. -/
def argminClose : List Bar → Option Bar
  | [] => none
  | b :: rest => some (rest.foldl (fun best r => if r.close < best.close then r else best) b)

/-- The weak-signal discard (lines 131-136): a boom candidate below the
required minimum loses its day, price, reason and type — but keeps its
`best_signal_strength`, exactly as the source does. -/
def discardWeak (p : Params) (scan : Candidate) : Candidate :=
  if scan.trade_type = some boomTypeName
      ∧ scan.best_signal_strength < p.min_signal_strength then
    { scan with best_buy := none, best_signal_reason := none, trade_type := none }
  else scan

/-- The fallback dip check (lines 138-148), run only when no buy day
survived. -/
def fallbackScan (p : Params) (month_data : List Bar) (cand : Candidate) : Candidate :=
  if cand.best_buy = none then
    let closes := month_data.map Bar.close
    let month_avg := closes.sum / (closes.length : ℚ)
    match argminClose month_data with
    | some mb =>
        if mb.close < month_avg * p.fallback_threshold then
          { cand with
            best_buy := some (mb.month, mb.day, mb.close),
            best_signal_reason := some (TradeReason.dip ((mb.close - month_avg) / month_avg * 100)),
            trade_type := some fallbackTypeName }
        else cand
    | none => cand
  else cand

/-- Lines 115-148: boom scan, weak-signal discard, fallback dip check. -/
def monthCandidate (p : Params) (month_data : List Bar) : Candidate :=
  fallbackScan p month_data (discardWeak p (scanBoom month_data))

/-- Allocation sizing (lines 152-166). -/
def allocationFraction (p : Params) (c : Candidate) : ℚ :=
  let effective_signal := if c.trade_type = some boomTypeName then c.best_signal_strength else 0
  if p.allocation_mode = tieredModeName then
    if c.trade_type = some boomTypeName then
      let normalized_strength :=
        if p.min_signal_strength < 100 then
          max 0 (min 1 ((effective_signal - p.min_signal_strength) / (100 - p.min_signal_strength)))
        else 0
      max p.profile_cfg.tiered_floor
        (min (p.profile_cfg.tiered_base + p.profile_cfg.tiered_bonus * normalized_strength) 1)
    else p.profile_cfg.fallback_fraction
  else 1

/-- The bars of calendar month `m` (line 98's mask, on the sorted frame). -/
def monthData (p : Params) (m : ℕ) : List Bar :=
  p.bars.filter (fun b => b.month = m)

/-- One iteration of the month loop (lines 92-232). -/
def processMonth (p : Params) (st : RunState) (m : ℕ) : RunState :=
  let month_data := monthData p m
  let accumulated_budget := st.accumulated_budget + p.monthly_amount
  if month_data.isEmpty then
    { st with
      accumulated_budget := accumulated_budget,
      monthly_summary := st.monthly_summary ++
        [{ month := m, traded := false, trade := none,
           accumulated_budget := accumulated_budget,
           monthly_budget := p.monthly_amount, allocation_fraction := none }] }
  else
    let cand := monthCandidate p month_data
    match cand.best_buy with
    | some bb =>
        let best_buy_price := bb.2.2
        let allocation_fraction := allocationFraction p cand
        let amount_invested0 := accumulated_budget * allocation_fraction
        if amount_invested0 < p.min_trade_amount then
          { st with
            accumulated_budget := accumulated_budget,
            months_waited := st.months_waited + 1,
            monthly_summary := st.monthly_summary ++
              [{ month := m, traded := false, trade := none,
                 accumulated_budget := pyRound accumulated_budget 2,
                 monthly_budget := p.monthly_amount, allocation_fraction := none }] }
        else
          let amount_invested := pyRound amount_invested0 2
          let shares_bought := amount_invested / best_buy_price
          let total_shares := st.total_shares + shares_bought
          let total_invested := st.total_invested + amount_invested
          let trade_current_value := shares_bought * p.current_price
          let trade_profit_loss := trade_current_value - amount_invested
          let trade_profit_loss_percent :=
            if amount_invested > 0 then trade_profit_loss / amount_invested * 100 else 0
          let trade : Trade :=
            { trade_date := (bb.1, bb.2.1), month := m,
              entry_price := pyRound best_buy_price 4,
              amount_invested := pyRound amount_invested 2,
              shares_bought := pyRound shares_bought 6,
              total_shares_after := pyRound total_shares 6,
              signal_strength :=
                if cand.best_signal_strength > 0
                then some (pyRound cand.best_signal_strength 2) else none,
              signal_reason := cand.best_signal_reason,
              trade_type := cand.trade_type,
              accumulated_budget_used := pyRound amount_invested 2,
              current_price := pyRound p.current_price 4,
              current_value := pyRound trade_current_value 2,
              profit_loss := pyRound trade_profit_loss 2,
              profit_loss_percent := pyRound trade_profit_loss_percent 2,
              allocation_fraction :=
                if p.allocation_mode = tieredModeName then pyRound allocation_fraction 3 else 1,
              signal_threshold := pyRound p.min_signal_strength 2 }
          let new_budget := max (pyRound (accumulated_budget - amount_invested) 2) 0
          { total_shares := total_shares,
            total_invested := total_invested,
            accumulated_budget := new_budget,
            months_waited := st.months_waited,
            months_bought := st.months_bought + 1,
            trades := st.trades ++ [trade],
            monthly_summary := st.monthly_summary ++
              [{ month := m, traded := true, trade := some trade,
                 accumulated_budget := new_budget,
                 monthly_budget := p.monthly_amount,
                 allocation_fraction := some trade.allocation_fraction }] }
    | none =>
        { st with
          accumulated_budget := accumulated_budget,
          months_waited := st.months_waited + 1,
          monthly_summary := st.monthly_summary ++
            [{ month := m, traded := false, trade := none,
               accumulated_budget := accumulated_budget,
               monthly_budget := p.monthly_amount, allocation_fraction := none }] }

/-- Date order on bars: lexicographic on `(month, day)`. -/
def barLE (a b : Bar) : Prop :=
  a.month < b.month ∨ (a.month = b.month ∧ a.day ≤ b.day)

instance barLE.decidableRel : DecidableRel barLE := fun a b => by
  unfold barLE
  infer_instance

/-- `df.sort_index()` (line 73): stable sort by date. -/
def sortBars (df : List Bar) : List Bar :=
  List.insertionSort barLE df

/-- Lines 74-80: the month starts from the first bar's month through the
last bar's month, truncated to the requested number of months. -/
def monthlyDates (df : List Bar) (months : ℕ) : List ℕ :=
  let bars := sortBars df
  match bars.head?, bars.getLast? with
  | some first, some last => (List.range' first.month (last.month + 1 - first.month)).take months
  | _, _ => []

/-- The bars of calendar month `m` of the (sorted) input frame. -/
def monthBars (df : List Bar) (m : ℕ) : List Bar :=
  (sortBars df).filter (fun b => b.month = m)

def effectiveProfileName (strategy : Strategy) : String :=
  strategy.strategy_profile.getD DEFAULT_PROFILE

/-- Line 64: `PROFILE_CONFIG.get(strategy_profile, PROFILE_CONFIG[DEFAULT_PROFILE])`. -/
def effectiveCfg (strategy : Strategy) : Cfg :=
  (PROFILE_CONFIG (effectiveProfileName strategy)).getD balancedConfig

/-- Lines 65-66: an unknown allocation mode silently becomes `full`. -/
def effectiveMode (strategy : Strategy) : String :=
  let m := strategy.allocation_mode.getD fullModeName
  if m = fullModeName ∨ m = tieredModeName then m else fullModeName

/-- Lines 67-69. -/
def effectiveMinSignal (strategy : Strategy) : ℚ :=
  strategy.min_signal_strength.getD (effectiveCfg strategy).min_signal_strength

/-- Line 70 (`or 0.0`, Python truthiness). -/
def effectiveMinTrade (strategy : Strategy) : ℚ :=
  pyOr strategy.min_trade_amount 0

/-- Line 71 (`or profile_cfg[...]`, Python truthiness). -/
def effectiveFallbackThreshold (strategy : Strategy) : ℚ :=
  pyOr strategy.fallback_threshold (effectiveCfg strategy).fallback_threshold

/-- `df.iloc[-1]['close']` on the sorted frame. -/
def lastClose (df : List Bar) : ℚ :=
  (((sortBars df).getLast?).map Bar.close).getD 0

def runParams (df : List Bar) (monthly_amount : ℚ) (strategy : Strategy) : Params :=
  { bars := sortBars df,
    monthly_amount := monthly_amount,
    allocation_mode := effectiveMode strategy,
    profile_cfg := effectiveCfg strategy,
    min_signal_strength := effectiveMinSignal strategy,
    min_trade_amount := effectiveMinTrade strategy,
    fallback_threshold := effectiveFallbackThreshold strategy,
    current_price := lastClose df }

/-- The month loop run to completion. -/
def runFinalState (df : List Bar) (monthly_amount : ℚ) (months : ℕ) (strategy : Strategy) :
    RunState :=
  (monthlyDates df months).foldl (processMonth (runParams df monthly_amount strategy))
    initialState

/-- The final result record (lines 239-258). -/
structure RunResult where
  symbol : String
  total_invested : ℚ
  total_shares : ℚ
  current_value : ℚ
  current_price : ℚ
  profit_loss : ℚ
  return_percent : ℚ
  months_bought : ℕ
  months_waited : ℕ
  buy_rate : ℚ
  unused_budget : ℚ
  trades : List Trade
  monthly_summary : List MonthSummary
  strategy_profile : String
  allocation_mode : String
  min_signal_strength : ℚ
  min_trade_amount : ℚ
  fallback_threshold : ℚ
deriving DecidableEq, Repr

/-- `calculate_smart_dca` from `app/services/dca_calculator.py`. -/
def calculate_smart_dca (df : List Bar) (symbol : String) (monthly_amount : ℚ)
    (months : ℕ) (strategy : Strategy) : Option RunResult :=
  if df.isEmpty then none
  else
    let final := runFinalState df monthly_amount months strategy
    let current_price := lastClose df
    let current_value := final.total_shares * current_price
    let profit_loss := current_value - final.total_invested
    let profit_loss_percent :=
      if final.total_invested > 0 then profit_loss / final.total_invested * 100 else 0
    let dates := monthlyDates df months
    some
      { symbol := symbol,
        total_invested := pyRound final.total_invested 2,
        total_shares := pyRound final.total_shares 6,
        current_value := pyRound current_value 2,
        current_price := pyRound current_price 4,
        profit_loss := pyRound profit_loss 2,
        return_percent := pyRound profit_loss_percent 2,
        months_bought := final.months_bought,
        months_waited := final.months_waited,
        buy_rate :=
          if dates.isEmpty then 0
          else pyRound ((final.months_bought : ℚ) / (dates.length : ℚ)) 4,
        unused_budget := pyRound final.accumulated_budget 2,
        trades := final.trades,
        monthly_summary := final.monthly_summary,
        strategy_profile := effectiveProfileName strategy,
        allocation_mode := effectiveMode strategy,
        min_signal_strength := pyRound (effectiveMinSignal strategy) 2,
        min_trade_amount :=
          if effectiveMinTrade strategy = 0 then 0 else pyRound (effectiveMinTrade strategy) 2,
        fallback_threshold := pyRound (effectiveFallbackThreshold strategy) 2 }

/-! ## Spec-side definitions, written from the specification's wording -/

/-- Spec-side allocation rule (spec section 4.3 step 6): in tiered mode a
boom trade's fraction is `tiered_base + tiered_bonus * normalized`, where
`normalized` maps the winning strength linearly from `min_signal_strength`
(to 0) to 100 (to 1), clamped to `[0, 1]` and forced to 0 when
`min_signal_strength >= 100`, the sum being clamped to
`[tiered_floor, 1]`; a tiered fallback trade gets `fallback_fraction`;
full mode always gets 1. -/
def specAllocationFraction (mode : String) (cfg : Cfg) (minSig strength : ℚ)
    (isBoomTrade : Bool) : ℚ :=
  if mode = tieredModeName then
    if isBoomTrade then
      let normalized :=
        if 100 ≤ minSig then 0
        else max 0 (min 1 ((strength - minSig) / (100 - minSig)))
      max cfg.tiered_floor (min (cfg.tiered_base + cfg.tiered_bonus * normalized) 1)
    else cfg.fallback_fraction
  else 1

/-- The amount invested in a ledger entry's month: the trade's amount, or
0 when no trade executed. -/
def tradeAmount (e : MonthSummary) : ℚ :=
  (e.trade.map Trade.amount_invested).getD 0

/-- Budget conservation along a ledger: starting from budget `b`, each
entry records `max (b + monthly - amount_invested) 0` and hands its
recorded budget to the next month. -/
def budgetChain (monthly : ℚ) : ℚ → List MonthSummary → Bool
  | _, [] => true
  | b, e :: rest =>
      decide (e.accumulated_budget = max (b + monthly - tradeAmount e) 0)
        && budgetChain monthly e.accumulated_budget rest

/-- A rational that is a whole number of hundredths (the 2-decimal money
grid of the result schema). -/
def onGrid (x : ℚ) : Prop := ∃ k : ℤ, x = (k : ℚ) / 100

/-! ## Concrete inputs used by witnesses and counterexamples -/

/-- A month with a 55-strength boom bar, under a prohibitive
`min_trade_amount` of 1000. -/
def skipParams : Params :=
  ⟨[⟨0, 1, 100, some (-6), some (-11), none, none, none⟩],
    100, fullModeName, balancedConfig, 40, 1000, 0.95, 100⟩

/-- Two months: a fallback dip trade in month 0, no opportunity in
month 1. -/
def budgetSeries : List Bar :=
  [⟨0, 1, 100, none, none, none, none, none⟩,
   ⟨0, 2, 80, none, none, none, none, none⟩,
   ⟨1, 1, 90, none, none, none, none, none⟩]

/-- A month holding a boom bar of strength 40 (below the conservative
threshold 55) next to a deep-dip bar that triggers the fallback. -/
def leakSeries : List Bar :=
  [⟨0, 1, 100, some (-6), none, some 35, none, none⟩,
   ⟨0, 2, 80, none, none, none, none, none⟩]

def conservativeStrategy : Strategy := ⟨some conservativeName, none, none, none, none⟩

/-- A month whose only boom bar has strength 40, run with an overridden
`min_signal_strength` of 50, next to a deep dip. -/
def weakBoomSeries : List Bar :=
  [⟨0, 1, 100, some (-6), none, some 35, none, none⟩,
   ⟨0, 2, 70, none, none, none, none, none⟩]

def override50Strategy : Strategy := ⟨none, none, some 50, none, none⟩

/-- A single quiet bar: no boom, no fallback, so nothing is ever bought. -/
def quietSeries : List Bar := [⟨0, 1, 50, none, none, none, none, none⟩]

/-- Step-level parameters running `leakSeries` under the conservative
profile in full mode. -/
def leakParams : Params :=
  ⟨leakSeries, 100, fullModeName, conservativeConfig, 55, 0, 0.93, 80⟩

/-- Step-level parameters for a tiered-mode month with only a fallback
dip, under the balanced profile. -/
def tieredFallbackParams : Params :=
  ⟨[⟨0, 1, 100, none, none, none, none, none⟩,
    ⟨0, 2, 80, none, none, none, none, none⟩],
    100, tieredModeName, balancedConfig, 40, 0, 0.95, 80⟩

/-! ## Theorems -/

section

/- Batteries marks the rational field operations `@[irreducible]`; concrete
runs of the embedded engine are evaluated by `decide`, which needs them
unfolded. -/
attribute [local semireducible] Rat.mul Rat.add Rat.sub Rat.inv Rat.ofScientific

set_option maxHeartbeats 2000000 in
/-- C5: for every augmented price bar the detector sums exactly the five
specified contributions (25 / 30 / 30-else-15 / 20 / 25), skips conditions
whose input field is undefined (0 points and no reason text, so the number
of reason fragments equals the number of fired conditions), and flags
`is_boom` iff the total strength is at least 40. -/
theorem detector_scoring (row : Bar) :
    (detect_boom_range row).strength = specStrength row
    ∧ (detect_boom_range row).is_boom = decide (40 ≤ specStrength row)
    ∧ (detect_boom_range row).reasons.length = specFiredCount row := by
  obtain ⟨mo, d, c, p20, p50, pr, d7, d30⟩ := row
  cases p20 <;> cases p50 <;> cases pr <;> cases d7 <;> cases d30 <;>
    simp only [detect_boom_range, specStrength, specFiredCount] <;>
    (try split_ifs) <;>
    simp_all [decide_eq_decide]

lemma diffsFrom_length (prev : ℚ) (l : List ℚ) : (diffsFrom prev l).length = l.length := by
  induction l generalizing prev with
  | nil => rfl
  | cons c rest ih => simp [diffsFrom, ih]

lemma diffs_length (l : List ℚ) : (diffs l).length = l.length := by
  cases l with
  | nil => rfl
  | cons c tail => simp [diffs, diffsFrom_length]

lemma gains_length (l : List ℚ) : (gains l).length = l.length := by
  simp [gains, diffs_length]

lemma losses_length (l : List ℚ) : (losses l).length = l.length := by
  simp [losses, diffs_length]

lemma diffsFrom_getElem (prev : ℚ) (l : List ℚ) (j : ℕ) (hj : j < l.length)
    (hj2 : j < (diffsFrom prev l).length) (hj3 : j - 1 < l.length) :
    (diffsFrom prev l)[j] = some (l[j] - if j = 0 then prev else l[j - 1]) := by
  induction l generalizing prev j with
  | nil => simp at hj
  | cons c rest ih =>
      cases j with
      | zero => simp [diffsFrom]
      | succ j =>
          have hjr : j < rest.length := by simpa using hj
          have hjr2 : j < (diffsFrom c rest).length := by
            simpa [diffsFrom_length] using hjr
          have hjr3 : j - 1 < rest.length := by omega
          have hrec := ih c j hjr hjr2 hjr3
          simp only [diffsFrom, List.getElem_cons_succ] at hrec ⊢
          rw [hrec]
          cases j with
          | zero => simp
          | succ j => simp

lemma diffs_getElem_zero (l : List ℚ) (h : 0 < l.length) (h2 : 0 < (diffs l).length) :
    (diffs l)[0] = none := by
  cases l with
  | nil => simp at h
  | cons c tail => simp [diffs]

lemma diffs_getElem_succ (l : List ℚ) (j : ℕ) (hj : j + 1 < l.length)
    (hj2 : j + 1 < (diffs l).length) :
    (diffs l)[j + 1] = some (l[j + 1] - l[j]) := by
  cases l with
  | nil => simp at hj
  | cons c tail =>
      have hjt : j < tail.length := by simpa using hj
      have hjt2 : j < (diffsFrom c tail).length := by simpa [diffsFrom_length] using hjt
      have hjt3 : j - 1 < tail.length := by omega
      have hrec := diffsFrom_getElem c tail j hjt hjt2 hjt3
      simp only [diffs, List.getElem_cons_succ]
      rw [hrec]
      cases j with
      | zero => simp
      | succ j => simp

lemma gains_nonneg (l : List ℚ) : ∀ x ∈ gains l, 0 ≤ x := by
  intro x hx
  simp only [gains, List.mem_map] at hx
  obtain ⟨d, _, rfl⟩ := hx
  cases d with
  | none => exact le_refl 0
  | some v =>
      dsimp only
      split <;> [linarith; exact le_refl 0]

set_option maxHeartbeats 1000000 in
/-- C7: a price series whose trailing 14-bar RSI window contains only
positive deltas makes the rolling `loss` zero and the rolling `gain`
positive, and the RSI pipeline assigns the defined value 100 at that bar
(the float quotient `gain / 0` is `+inf` and `100 - 100 / (1 + inf)`
collapses to 100). -/
theorem rsi_all_gains (closes : List ℚ) (i : ℕ) (h1 : 1 ≤ i) (h2 : i < closes.length)
    (hpos : ∀ j, i + 1 ≤ j + 14 → 1 ≤ j → j ≤ i →
      closes.getD (j - 1) 0 < closes.getD j 0) :
    rsiAt closes i = some 100 := by
  have hLlen : (losses closes).length = closes.length := losses_length closes
  have hGlen : (gains closes).length = closes.length := gains_length closes
  have hDlen : (diffs closes).length = closes.length := diffs_length closes
  -- entries of the loss window are all zero
  have hlossEntry : ∀ j, j < closes.length → i + 1 ≤ j + 14 → j ≤ i →
      ∀ hb : j < (losses closes).length, (losses closes)[j] = 0 := by
    intro j hjlen hj14 hji hb
    have hbD : j < (diffs closes).length := by omega
    cases j with
    | zero =>
        have h0 : (diffs closes)[0] = none := diffs_getElem_zero closes (by omega) (by omega)
        simp [losses, h0]
    | succ j =>
        have hd : (diffs closes)[j + 1] = some (closes[j + 1] - closes[j]) :=
          diffs_getElem_succ closes j hjlen hbD
        have hdelta : 0 < closes[j + 1] - closes[j] := by
          have := hpos (j + 1) (by omega) (by omega) (by omega)
          rw [List.getD_eq_getElem _ _ (by omega : j + 1 - 1 < closes.length),
            List.getD_eq_getElem _ _ (by omega : j + 1 < closes.length)] at this
          simp only [Nat.add_sub_cancel] at this
          linarith
        simp only [losses, List.getElem_map, hd]
        rw [if_neg (by linarith)]
  -- entry i of the gain series is the (positive) delta at i
  have hgainI : ∀ hb : i < (gains closes).length, 0 < (gains closes)[i] := by
    intro hb
    have hbD : i < (diffs closes).length := by omega
    obtain ⟨j, rfl⟩ : ∃ j, i = j + 1 := ⟨i - 1, by omega⟩
    have hd : (diffs closes)[j + 1] = some (closes[j + 1] - closes[j]) :=
      diffs_getElem_succ closes j h2 hbD
    have hdelta : 0 < closes[j + 1] - closes[j] := by
      have := hpos (j + 1) (by omega) (by omega) (by omega)
      rw [List.getD_eq_getElem _ _ (by omega : j + 1 - 1 < closes.length),
        List.getD_eq_getElem _ _ (by omega : j + 1 < closes.length)] at this
      simp only [Nat.add_sub_cancel] at this
      linarith
    simp only [gains, List.getElem_map, hd]
    rw [if_pos hdelta]
    exact hdelta
  -- the loss rolling mean is zero
  have hloss : rollingMeanAt (losses closes) 14 i = 0 := by
    have hwinlen : (((losses closes).take (i + 1)).drop (i + 1 - 14)).length
        = (i + 1) - (i + 1 - 14) := by
      simp only [List.length_drop, List.length_take, hLlen]
      omega
    have hzero : ∀ x ∈ ((losses closes).take (i + 1)).drop (i + 1 - 14), x = 0 := by
      intro x hx
      obtain ⟨k, hk, hkx⟩ := List.mem_iff_getElem.mp hx
      rw [hwinlen] at hk
      rw [List.getElem_drop, List.getElem_take] at hkx
      rw [← hkx]
      exact hlossEntry ((i + 1 - 14) + k) (by omega) (by omega) (by omega) (by omega)
    simp only [rollingMeanAt]
    rw [List.sum_eq_zero hzero, zero_div]
  -- the gain rolling mean is positive
  have hgain : 0 < rollingMeanAt (gains closes) 14 i := by
    have hiG : i < (gains closes).length := by omega
    have hwinlen : (((gains closes).take (i + 1)).drop (i + 1 - 14)).length
        = (i + 1) - (i + 1 - 14) := by
      simp only [List.length_drop, List.length_take, hGlen]
      omega
    have hkstar : i - (i + 1 - 14) < (((gains closes).take (i + 1)).drop (i + 1 - 14)).length := by
      rw [hwinlen]
      omega
    have hmemi : (gains closes)[i] ∈ ((gains closes).take (i + 1)).drop (i + 1 - 14) := by
      have hgetd : (((gains closes).take (i + 1)).drop (i + 1 - 14))[i - (i + 1 - 14)]
          = (gains closes)[i] := by
        rw [List.getElem_drop, List.getElem_take]
        congr 1
        omega
      rw [← hgetd]
      exact List.getElem_mem hkstar
    have hnn : ∀ x ∈ ((gains closes).take (i + 1)).drop (i + 1 - 14), 0 ≤ x := by
      intro x hx
      exact gains_nonneg closes x (List.mem_of_mem_take (List.mem_of_mem_drop hx))
    have hsum : (gains closes)[i] ≤ (((gains closes).take (i + 1)).drop (i + 1 - 14)).sum :=
      List.single_le_sum hnn _ hmemi
    have hpos_sum : 0 < (((gains closes).take (i + 1)).drop (i + 1 - 14)).sum :=
      lt_of_lt_of_le (hgainI hiG) hsum
    have hposlen : 0 < ((((gains closes).take (i + 1)).drop (i + 1 - 14)).length : ℚ) := by
      have : 0 < (((gains closes).take (i + 1)).drop (i + 1 - 14)).length := by omega
      exact_mod_cast this
    simp only [rollingMeanAt]
    exact div_pos hpos_sum hposlen
  simp only [rsiAt]
  rw [if_pos hloss, if_pos hgain]

/-- C10: an unrecognised `strategy_profile` silently uses the balanced
profile's configuration and an unrecognised `allocation_mode` silently
becomes `full`: the run is identical to the balanced/full run except that
the unrecognised profile name is echoed back, and a full result record is
still produced (no error). -/
theorem unknown_profile_fallback (df : List Bar) (symbol : String) (monthly_amount : ℚ)
    (months : ℕ) (name mode : String) (ms mt ft : Option ℚ)
    (hn1 : name ≠ aggressiveName) (hn2 : name ≠ balancedName) (hn3 : name ≠ conservativeName)
    (hm1 : mode ≠ fullModeName) (hm2 : mode ≠ tieredModeName) :
    (calculate_smart_dca df symbol monthly_amount months ⟨some name, some mode, ms, mt, ft⟩).map
        (fun r => { r with strategy_profile := DEFAULT_PROFILE })
      = calculate_smart_dca df symbol monthly_amount months
          ⟨some DEFAULT_PROFILE, some fullModeName, ms, mt, ft⟩
    ∧ (∀ r ∈ calculate_smart_dca df symbol monthly_amount months
          ⟨some name, some mode, ms, mt, ft⟩,
        r.strategy_profile = name ∧ r.allocation_mode = fullModeName)
    ∧ (df.isEmpty = false →
        (calculate_smart_dca df symbol monthly_amount months
          ⟨some name, some mode, ms, mt, ft⟩).isSome = true) := by
  have hcfg : effectiveCfg ⟨some name, some mode, ms, mt, ft⟩ = balancedConfig := by
    simp [effectiveCfg, effectiveProfileName, PROFILE_CONFIG, hn1, hn2, hn3]
  have hcfg2 : effectiveCfg ⟨some DEFAULT_PROFILE, some fullModeName, ms, mt, ft⟩
      = balancedConfig := by
    simp [effectiveCfg, effectiveProfileName, PROFILE_CONFIG, DEFAULT_PROFILE,
      show balancedName ≠ aggressiveName from by decide]
  have hmode : effectiveMode ⟨some name, some mode, ms, mt, ft⟩ = fullModeName := by
    simp [effectiveMode, hm1, hm2]
  have hmode2 : effectiveMode ⟨some DEFAULT_PROFILE, some fullModeName, ms, mt, ft⟩
      = fullModeName := by
    simp [effectiveMode]
  have hsig : effectiveMinSignal ⟨some name, some mode, ms, mt, ft⟩
      = effectiveMinSignal ⟨some DEFAULT_PROFILE, some fullModeName, ms, mt, ft⟩ := by
    simp [effectiveMinSignal, hcfg, hcfg2]
  have hthr : effectiveFallbackThreshold ⟨some name, some mode, ms, mt, ft⟩
      = effectiveFallbackThreshold ⟨some DEFAULT_PROFILE, some fullModeName, ms, mt, ft⟩ := by
    simp [effectiveFallbackThreshold, hcfg, hcfg2]
  have hP : runParams df monthly_amount ⟨some name, some mode, ms, mt, ft⟩
      = runParams df monthly_amount ⟨some DEFAULT_PROFILE, some fullModeName, ms, mt, ft⟩ := by
    simp [runParams, hcfg, hcfg2, hmode, hmode2, hsig, hthr, effectiveMinTrade]
  have hFS : runFinalState df monthly_amount months ⟨some name, some mode, ms, mt, ft⟩
      = runFinalState df monthly_amount months
          ⟨some DEFAULT_PROFILE, some fullModeName, ms, mt, ft⟩ := by
    unfold runFinalState
    rw [hP]
  refine ⟨?_, ?_, ?_⟩
  · by_cases hdf : df.isEmpty
    · simp [calculate_smart_dca, hdf]
    · simp only [calculate_smart_dca, hdf, if_false, Bool.false_eq_true, Option.map_some]
      rw [hFS, hsig, hthr, hmode, hmode2]
      rfl
  · intro r hr
    by_cases hdf : df.isEmpty
    · simp [calculate_smart_dca, hdf] at hr
    · simp only [calculate_smart_dca, hdf, if_false, Bool.false_eq_true,
        Option.mem_def, Option.some.injEq] at hr
      subst hr
      exact ⟨rfl, hmode⟩
  · intro hdf
    simp [calculate_smart_dca, hdf]

/-- C10 witness: a concrete run with profile name `momentum` and mode
`half` still produces a result. -/
theorem unknown_profile_fallback_witness :
    (calculate_smart_dca [(⟨0, 1, 100, none, none, none, none, none⟩ : Bar)] ("X") 100 24
      ⟨some ("momentum"), some ("half"), none, none, none⟩).isSome = true :=
  (unknown_profile_fallback [(⟨0, 1, 100, none, none, none, none, none⟩ : Bar)] ("X") 100 24
    ("momentum") ("half") none none none
    (by decide) (by decide) (by decide) (by decide) (by decide)).2.2 (by decide)

/-! ### Shape lemmas for one month iteration -/

lemma processMonth_empty (p : Params) (st : RunState) (m : ℕ)
    (h : (monthData p m).isEmpty = true) :
    processMonth p st m =
      { st with
        accumulated_budget := st.accumulated_budget + p.monthly_amount,
        monthly_summary := st.monthly_summary ++
          [{ month := m, traded := false, trade := none,
             accumulated_budget := st.accumulated_budget + p.monthly_amount,
             monthly_budget := p.monthly_amount, allocation_fraction := none }] } := by
  unfold processMonth
  simp [h]

lemma processMonth_noCand (p : Params) (st : RunState) (m : ℕ)
    (h : (monthData p m).isEmpty = false)
    (hc : (monthCandidate p (monthData p m)).best_buy = none) :
    processMonth p st m =
      { st with
        accumulated_budget := st.accumulated_budget + p.monthly_amount,
        months_waited := st.months_waited + 1,
        monthly_summary := st.monthly_summary ++
          [{ month := m, traded := false, trade := none,
             accumulated_budget := st.accumulated_budget + p.monthly_amount,
             monthly_budget := p.monthly_amount, allocation_fraction := none }] } := by
  unfold processMonth
  simp [h, hc]

lemma processMonth_skip (p : Params) (st : RunState) (m : ℕ) (bb : ℕ × ℕ × ℚ)
    (h : (monthData p m).isEmpty = false)
    (hc : (monthCandidate p (monthData p m)).best_buy = some bb)
    (hlt : (st.accumulated_budget + p.monthly_amount)
        * allocationFraction p (monthCandidate p (monthData p m)) < p.min_trade_amount) :
    processMonth p st m =
      { st with
        accumulated_budget := st.accumulated_budget + p.monthly_amount,
        months_waited := st.months_waited + 1,
        monthly_summary := st.monthly_summary ++
          [{ month := m, traded := false, trade := none,
             accumulated_budget := pyRound (st.accumulated_budget + p.monthly_amount) 2,
             monthly_budget := p.monthly_amount, allocation_fraction := none }] } := by
  unfold processMonth
  simp [h, hc, hlt]

/-- The trade record built in the execute branch (lines 181-209), as a
function of its inputs. -/
def builtTrade (p : Params) (st : RunState) (m : ℕ) (cand : Candidate) (bb : ℕ × ℕ × ℚ) :
    Trade :=
  let accumulated_budget := st.accumulated_budget + p.monthly_amount
  let amount_invested := pyRound (accumulated_budget * allocationFraction p cand) 2
  let shares_bought := amount_invested / bb.2.2
  let total_shares := st.total_shares + shares_bought
  let trade_current_value := shares_bought * p.current_price
  let trade_profit_loss := trade_current_value - amount_invested
  let trade_profit_loss_percent :=
    if amount_invested > 0 then trade_profit_loss / amount_invested * 100 else 0
  { trade_date := (bb.1, bb.2.1), month := m,
    entry_price := pyRound bb.2.2 4,
    amount_invested := pyRound amount_invested 2,
    shares_bought := pyRound shares_bought 6,
    total_shares_after := pyRound total_shares 6,
    signal_strength :=
      if cand.best_signal_strength > 0 then some (pyRound cand.best_signal_strength 2) else none,
    signal_reason := cand.best_signal_reason,
    trade_type := cand.trade_type,
    accumulated_budget_used := pyRound amount_invested 2,
    current_price := pyRound p.current_price 4,
    current_value := pyRound trade_current_value 2,
    profit_loss := pyRound trade_profit_loss 2,
    profit_loss_percent := pyRound trade_profit_loss_percent 2,
    allocation_fraction :=
      if p.allocation_mode = tieredModeName then pyRound (allocationFraction p cand) 3 else 1,
    signal_threshold := pyRound p.min_signal_strength 2 }

lemma processMonth_trade (p : Params) (st : RunState) (m : ℕ) (bb : ℕ × ℕ × ℚ)
    (h : (monthData p m).isEmpty = false)
    (hc : (monthCandidate p (monthData p m)).best_buy = some bb)
    (hge : ¬ (st.accumulated_budget + p.monthly_amount)
        * allocationFraction p (monthCandidate p (monthData p m)) < p.min_trade_amount) :
    processMonth p st m =
      (let cand := monthCandidate p (monthData p m)
       let accumulated_budget := st.accumulated_budget + p.monthly_amount
       let amount_invested := pyRound (accumulated_budget * allocationFraction p cand) 2
       let trade := builtTrade p st m cand bb
       let new_budget := max (pyRound (accumulated_budget - amount_invested) 2) 0
       { total_shares := st.total_shares + amount_invested / bb.2.2,
         total_invested := st.total_invested + amount_invested,
         accumulated_budget := new_budget,
         months_waited := st.months_waited,
         months_bought := st.months_bought + 1,
         trades := st.trades ++ [trade],
         monthly_summary := st.monthly_summary ++
           [{ month := m, traded := true, trade := some trade,
              accumulated_budget := new_budget,
              monthly_budget := p.monthly_amount,
              allocation_fraction := some trade.allocation_fraction }] }) := by
  unfold processMonth builtTrade
  simp [h, hc, hge]

lemma processMonth_counters (p : Params) (st : RunState) (m : ℕ) :
    (processMonth p st m).months_bought + (processMonth p st m).months_waited
      = st.months_bought + st.months_waited + (if (monthData p m).isEmpty then 0 else 1)
    ∧ (processMonth p st m).monthly_summary.length = st.monthly_summary.length + 1 := by
  by_cases h : (monthData p m).isEmpty
  · rw [processMonth_empty p st m h]
    simp [h]
  · rw [Bool.not_eq_true] at h
    cases hc : (monthCandidate p (monthData p m)).best_buy with
    | none =>
        rw [processMonth_noCand p st m h hc]
        simp [h]
        omega
    | some bb =>
        by_cases hlt : (st.accumulated_budget + p.monthly_amount)
            * allocationFraction p (monthCandidate p (monthData p m)) < p.min_trade_amount
        · rw [processMonth_skip p st m bb h hc hlt]
          simp [h]
          omega
        · rw [processMonth_trade p st m bb h hc hlt]
          simp [h]
          omega

lemma foldl_counters (p : Params) (ms : List ℕ) : ∀ st : RunState,
    ((ms.foldl (processMonth p) st).months_bought
        + (ms.foldl (processMonth p) st).months_waited
      = st.months_bought + st.months_waited
        + ms.countP (fun m => !(monthData p m).isEmpty))
    ∧ (ms.foldl (processMonth p) st).monthly_summary.length
      = st.monthly_summary.length + ms.length := by
  induction ms with
  | nil => intro st; simp
  | cons m ms ih =>
      intro st
      obtain ⟨ih1, ih2⟩ := ih (processMonth p st m)
      obtain ⟨h1, h2⟩ := processMonth_counters p st m
      simp only [List.foldl_cons, List.countP_cons, List.length_cons]
      constructor
      · rw [ih1]
        by_cases h : (monthData p m).isEmpty <;> simp [h] at h1 ⊢ <;> omega
      · rw [ih2, h2]
        omega

/-- C1 counterexample: a series with bars in the first and third calendar
months but none in the second.  Three months are simulated and the ledger
has three entries, yet `months_bought + months_waited = 2`: the
empty-month branch appends a ledger entry without touching either
counter. -/
theorem months_counter_counterexample :
    ((calculate_smart_dca
        [(⟨0, 1, 100, none, none, none, none, none⟩ : Bar),
         (⟨2, 1, 100, none, none, none, none, none⟩ : Bar)]
        ("GAP") 100 24 ⟨none, none, none, none, none⟩).map
      (fun r => (r.months_bought + r.months_waited, r.monthly_summary.length)))
      = some (2, 3) ∧ (2 : ℕ) ≠ 3 :=
  ⟨by decide, by decide⟩

/-- C1 (corrected): `months_bought + months_waited` equals the number of
simulated months whose calendar month contains at least one price bar;
the monthly ledger still gets exactly one entry per simulated month, so
the two quantities agree exactly when no simulated month is empty of
bars. -/
theorem months_counter_invariant (df : List Bar) (symbol : String) (monthly_amount : ℚ)
    (months : ℕ) (strat : Strategy) (r : RunResult)
    (hr : calculate_smart_dca df symbol monthly_amount months strat = some r) :
    r.months_bought + r.months_waited
      = (monthlyDates df months).countP (fun m => !(monthBars df m).isEmpty)
    ∧ r.monthly_summary.length = (monthlyDates df months).length := by
  by_cases hdf : df.isEmpty
  · simp [calculate_smart_dca, hdf] at hr
  · rw [Bool.not_eq_true] at hdf
    simp only [calculate_smart_dca, hdf, Bool.false_eq_true, if_false,
      Option.some.injEq] at hr
    subst hr
    obtain ⟨h1, h2⟩ :=
      foldl_counters (runParams df monthly_amount strat) (monthlyDates df months) initialState
    constructor
    · simpa [runFinalState, initialState, monthData, runParams, monthBars] using h1
    · simpa [runFinalState, initialState] using h2

/-- C1 witness: the corrected invariant evaluated on the gap series. -/
theorem months_counter_invariant_witness :
    ((calculate_smart_dca
        [(⟨0, 1, 100, none, none, none, none, none⟩ : Bar),
         (⟨2, 1, 100, none, none, none, none, none⟩ : Bar)]
        ("GAPW") 100 24 ⟨none, none, none, none, none⟩).map
      (fun r => r.months_bought + r.months_waited)) = some 2 := by
  cases heq : calculate_smart_dca
      [(⟨0, 1, 100, none, none, none, none, none⟩ : Bar),
       (⟨2, 1, 100, none, none, none, none, none⟩ : Bar)]
      ("GAPW") 100 24 ⟨none, none, none, none, none⟩ with
  | none => exact absurd heq (by decide)
  | some r =>
      have h := (months_counter_invariant _ _ _ _ _ _ heq).1
      simp only [Option.map_some', Option.some.injEq]
      rw [h]
      decide

/-- C7 witness: a strictly increasing 3-bar series has RSI 100 at its
last bar. -/
theorem rsi_all_gains_witness : rsiAt [1, 2, 3] 2 = some 100 :=
  rsi_all_gains [1, 2, 3] 2 (by norm_num) (by norm_num)
    (by
      intro j h14 h1 h2
      interval_cases j <;> decide)

/-! ### The 2-decimal money grid -/

lemma pyRoundInt_intCast (k : ℤ) : pyRoundInt (k : ℚ) = k := by
  simp [pyRoundInt, Int.floor_intCast, sub_self]

lemma onGrid_pyRound2 (x : ℚ) : onGrid (pyRound x 2) := by
  refine ⟨pyRoundInt (x * 100), ?_⟩
  simp only [pyRound]
  norm_num

lemma pyRound2_of_onGrid {x : ℚ} (h : onGrid x) : pyRound x 2 = x := by
  obtain ⟨k, rfl⟩ := h
  have hx : (k : ℚ) / 100 * ((10 ^ 2 : ℕ) : ℚ) = (k : ℚ) := by
    push_cast
    field_simp
  simp only [pyRound, hx, pyRoundInt_intCast]
  push_cast
  ring

lemma onGrid_zero : onGrid 0 := ⟨0, by norm_num⟩

lemma onGrid_add {x y : ℚ} (hx : onGrid x) (hy : onGrid y) : onGrid (x + y) := by
  obtain ⟨a, rfl⟩ := hx
  obtain ⟨b, rfl⟩ := hy
  exact ⟨a + b, by push_cast; ring⟩

lemma onGrid_sub {x y : ℚ} (hx : onGrid x) (hy : onGrid y) : onGrid (x - y) := by
  obtain ⟨a, rfl⟩ := hx
  obtain ⟨b, rfl⟩ := hy
  exact ⟨a - b, by push_cast; ring⟩

lemma onGrid_max_zero {x : ℚ} (hx : onGrid x) : onGrid (max x 0) := by
  rcases le_total x 0 with h | h
  · rw [max_eq_right h]
    exact onGrid_zero
  · rw [max_eq_left h]
    exact hx

/-! ### Budget conservation -/

lemma processMonth_budget (p : Params) (st : RunState) (m : ℕ)
    (hm0 : 0 ≤ p.monthly_amount) (hmg : onGrid p.monthly_amount)
    (ha0 : 0 ≤ st.accumulated_budget) (hag : onGrid st.accumulated_budget) :
    ∃ e : MonthSummary,
      (processMonth p st m).monthly_summary = st.monthly_summary ++ [e]
      ∧ e.accumulated_budget = (processMonth p st m).accumulated_budget
      ∧ e.accumulated_budget
          = max (st.accumulated_budget + p.monthly_amount - tradeAmount e) 0
      ∧ 0 ≤ (processMonth p st m).accumulated_budget
      ∧ onGrid (processMonth p st m).accumulated_budget := by
  have hacc0 : 0 ≤ st.accumulated_budget + p.monthly_amount := by linarith
  have haccg : onGrid (st.accumulated_budget + p.monthly_amount) := onGrid_add hag hmg
  by_cases h : (monthData p m).isEmpty
  · rw [processMonth_empty p st m h]
    refine ⟨_, rfl, rfl, ?_, hacc0, haccg⟩
    simp [tradeAmount, max_eq_left hacc0]
  · rw [Bool.not_eq_true] at h
    cases hc : (monthCandidate p (monthData p m)).best_buy with
    | none =>
        rw [processMonth_noCand p st m h hc]
        refine ⟨_, rfl, rfl, ?_, hacc0, haccg⟩
        simp [tradeAmount, max_eq_left hacc0]
    | some bb =>
        by_cases hlt : (st.accumulated_budget + p.monthly_amount)
            * allocationFraction p (monthCandidate p (monthData p m)) < p.min_trade_amount
        · rw [processMonth_skip p st m bb h hc hlt]
          refine ⟨_, rfl, ?_, ?_, hacc0, haccg⟩
          · simp [pyRound2_of_onGrid haccg]
          · simp [tradeAmount, pyRound2_of_onGrid haccg, max_eq_left hacc0]
        · rw [processMonth_trade p st m bb h hc hlt]
          simp only []
          have hinv : onGrid (pyRound ((st.accumulated_budget + p.monthly_amount)
              * allocationFraction p (monthCandidate p (monthData p m))) 2) :=
            onGrid_pyRound2 _
          have hsubg : onGrid ((st.accumulated_budget + p.monthly_amount)
              - pyRound ((st.accumulated_budget + p.monthly_amount)
                  * allocationFraction p (monthCandidate p (monthData p m))) 2) :=
            onGrid_sub haccg hinv
          refine ⟨_, rfl, rfl, ?_, ?_, ?_⟩
          · simp only [tradeAmount, builtTrade, Option.map_some', Option.getD_some]
            rw [pyRound2_of_onGrid hinv, pyRound2_of_onGrid hsubg]
          · exact le_max_right _ _
          · exact onGrid_max_zero (onGrid_pyRound2 _)

lemma foldl_budget (p : Params) (hm0 : 0 ≤ p.monthly_amount)
    (hmg : onGrid p.monthly_amount) :
    ∀ (ms : List ℕ) (st : RunState),
      0 ≤ st.accumulated_budget → onGrid st.accumulated_budget →
      ∃ Δ, (ms.foldl (processMonth p) st).monthly_summary = st.monthly_summary ++ Δ
        ∧ budgetChain p.monthly_amount st.accumulated_budget Δ = true := by
  intro ms
  induction ms with
  | nil =>
      intro st _ _
      exact ⟨[], by simp, rfl⟩
  | cons m ms ih =>
      intro st ha0 hag
      obtain ⟨e, hsum, herec, hemax, hpos, hgrid⟩ := processMonth_budget p st m hm0 hmg ha0 hag
      obtain ⟨Δ, hsum2, hchain⟩ := ih (processMonth p st m) hpos hgrid
      refine ⟨e :: Δ, ?_, ?_⟩
      · rw [List.foldl_cons, hsum2, hsum]
        simp
      · simp only [budgetChain, Bool.and_eq_true, decide_eq_true_eq]
        refine ⟨hemax, ?_⟩
        rw [herec]
        exact hchain

/-- C2: in every run with a nonnegative whole-cent monthly budget, the
accumulated budget recorded after each simulated month equals the budget
recorded before the month plus `monthly_amount` minus the amount invested
that month (0 when no trade executed), floored at 0. -/
theorem budget_conservation (df : List Bar) (symbol : String) (monthly_amount : ℚ)
    (months : ℕ) (strat : Strategy) (r : RunResult)
    (h0 : 0 ≤ monthly_amount) (hg : onGrid monthly_amount)
    (hr : calculate_smart_dca df symbol monthly_amount months strat = some r) :
    budgetChain monthly_amount 0 r.monthly_summary = true := by
  by_cases hdf : df.isEmpty
  · simp [calculate_smart_dca, hdf] at hr
  · rw [Bool.not_eq_true] at hdf
    simp only [calculate_smart_dca, hdf, Bool.false_eq_true, if_false,
      Option.some.injEq] at hr
    subst hr
    obtain ⟨Δ, hs, hc⟩ := foldl_budget (runParams df monthly_amount strat) h0 hg
      (monthlyDates df months) initialState (le_refl 0) onGrid_zero
    show budgetChain monthly_amount 0
      ((monthlyDates df months).foldl (processMonth (runParams df monthly_amount strat))
        initialState).monthly_summary = true
    rw [hs]
    simpa using hc

/-- C2 witness: the chain evaluated on a concrete two-month run with one
fallback trade. -/
theorem budget_conservation_witness :
    ((calculate_smart_dca budgetSeries ("BCW") 100 24 ⟨none, none, none, none, none⟩).map
      (fun r => budgetChain 100 0 r.monthly_summary)) = some true := by
  cases heq : calculate_smart_dca budgetSeries ("BCW") 100 24 ⟨none, none, none, none, none⟩ with
  | none => exact absurd heq (by decide)
  | some r =>
      have h := budget_conservation _ _ _ _ _ _ (by norm_num) ⟨10000, by norm_num⟩ heq
      simp only [Option.map_some', h]

/-- C8: a month whose buy candidate sizes below `min_trade_amount` records
no trade, appends a non-traded ledger entry, increments `months_waited`,
and leaves the accumulated budget (beyond the month's normal top-up),
`total_shares` and `total_invested` unchanged — the budget carries forward
in full. -/
theorem min_trade_skip (p : Params) (st : RunState) (m : ℕ) (bb : ℕ × ℕ × ℚ)
    (h : (monthData p m).isEmpty = false)
    (hc : (monthCandidate p (monthData p m)).best_buy = some bb)
    (hlt : (st.accumulated_budget + p.monthly_amount)
        * allocationFraction p (monthCandidate p (monthData p m)) < p.min_trade_amount) :
    (processMonth p st m).trades = st.trades
    ∧ (processMonth p st m).total_shares = st.total_shares
    ∧ (processMonth p st m).total_invested = st.total_invested
    ∧ (processMonth p st m).accumulated_budget = st.accumulated_budget + p.monthly_amount
    ∧ (processMonth p st m).months_waited = st.months_waited + 1
    ∧ (processMonth p st m).months_bought = st.months_bought
    ∧ (processMonth p st m).monthly_summary = st.monthly_summary ++
        [{ month := m, traded := false, trade := none,
           accumulated_budget := pyRound (st.accumulated_budget + p.monthly_amount) 2,
           monthly_budget := p.monthly_amount, allocation_fraction := none }] := by
  rw [processMonth_skip p st m bb h hc hlt]
  exact ⟨rfl, rfl, rfl, rfl, rfl, rfl, rfl⟩

/-- C8 witness: a 55-strength boom month under `min_trade_amount = 1000`
abandons the trade and carries the budget forward. -/
theorem min_trade_skip_witness :
    (processMonth skipParams initialState 0).trades = initialState.trades
    ∧ (processMonth skipParams initialState 0).accumulated_budget
        = initialState.accumulated_budget + skipParams.monthly_amount
    ∧ (processMonth skipParams initialState 0).months_waited
        = initialState.months_waited + 1 := by
  have h := min_trade_skip skipParams initialState 0 (0, 1, 100)
    (by decide) (by decide) (by decide)
  exact ⟨h.1, h.2.2.2.1, h.2.2.2.2.1⟩

/-! ### The boom scan and the weak-signal discard -/

lemma scanStep_cases (c : Candidate) (r : Bar) :
    scanStep c r = c
    ∨ ((detect_boom_range r).is_boom = true
        ∧ scanStep c r = ⟨some (r.month, r.day, r.close), (detect_boom_range r).strength,
            some (TradeReason.boom (detect_boom_range r).reasons), some boomTypeName⟩) := by
  unfold scanStep
  dsimp only
  split_ifs with h
  · right
    exact ⟨h.1, rfl⟩
  · left
    rfl

lemma foldl_scanStep_cases (rows : List Bar) : ∀ c : Candidate,
    rows.foldl scanStep c = c
    ∨ ∃ b ∈ rows, (detect_boom_range b).is_boom = true
        ∧ rows.foldl scanStep c
            = ⟨some (b.month, b.day, b.close), (detect_boom_range b).strength,
                some (TradeReason.boom (detect_boom_range b).reasons), some boomTypeName⟩ := by
  induction rows with
  | nil =>
      intro c
      left
      rfl
  | cons r rows ih =>
      intro c
      rcases ih (scanStep c r) with h | ⟨b, hb, hboom, heq⟩
      · rcases scanStep_cases c r with h2 | ⟨hboom, h2⟩
        · left
          rw [List.foldl_cons, h, h2]
        · right
          exact ⟨r, by simp, hboom, by rw [List.foldl_cons, h, h2]⟩
      · right
        exact ⟨b, by simp [hb], hboom, heq⟩

lemma scanBoom_cases (rows : List Bar) :
    scanBoom rows = initCandidate
    ∨ ∃ b ∈ rows, (detect_boom_range b).is_boom = true
        ∧ scanBoom rows = ⟨some (b.month, b.day, b.close), (detect_boom_range b).strength,
            some (TradeReason.boom (detect_boom_range b).reasons), some boomTypeName⟩ :=
  foldl_scanStep_cases rows initCandidate

lemma detect_isBoom_ge (row : Bar) (h : (detect_boom_range row).is_boom = true) :
    40 ≤ (detect_boom_range row).strength := by
  have heq : (detect_boom_range row).is_boom
      = decide ((detect_boom_range row).strength ≥ 40) := rfl
  rw [heq, decide_eq_true_eq] at h
  exact h

lemma discardWeak_strength (p : Params) (c : Candidate) :
    (discardWeak p c).best_signal_strength = c.best_signal_strength := by
  unfold discardWeak
  split_ifs <;> rfl

lemma discardWeak_of_discard (p : Params) (c : Candidate)
    (h1 : c.trade_type = some boomTypeName)
    (h2 : c.best_signal_strength < p.min_signal_strength) :
    discardWeak p c
      = { c with best_buy := none, best_signal_reason := none, trade_type := none } := by
  unfold discardWeak
  rw [if_pos ⟨h1, h2⟩]

lemma fallbackScan_strength (p : Params) (md : List Bar) (c : Candidate) :
    (fallbackScan p md c).best_signal_strength = c.best_signal_strength := by
  unfold fallbackScan
  dsimp only
  repeat' split
  all_goals rfl

lemma fallbackScan_some_type (p : Params) (md : List Bar) (c : Candidate)
    (hc : c.best_buy = none) (bb : ℕ × ℕ × ℚ)
    (hsome : (fallbackScan p md c).best_buy = some bb) :
    (fallbackScan p md c).trade_type = some fallbackTypeName := by
  unfold fallbackScan at hsome ⊢
  rw [if_pos hc] at hsome ⊢
  cases ham : argminClose md with
  | none =>
      rw [ham] at hsome
      dsimp only at hsome
      rw [hc] at hsome
      simp at hsome
  | some mb =>
      rw [ham] at hsome
      dsimp only at hsome ⊢
      split_ifs at hsome ⊢ with h
      · rfl
      · rw [hc] at hsome
        simp at hsome

lemma monthCandidate_strength (p : Params) (md : List Bar) :
    (monthCandidate p md).best_signal_strength = (scanBoom md).best_signal_strength := by
  unfold monthCandidate
  rw [fallbackScan_strength, discardWeak_strength]

lemma monthCandidate_discard_type (p : Params) (md : List Bar)
    (hboom : (scanBoom md).trade_type = some boomTypeName)
    (hlt : (scanBoom md).best_signal_strength < p.min_signal_strength) :
    ∀ bb, (monthCandidate p md).best_buy = some bb →
      (monthCandidate p md).trade_type = some fallbackTypeName := by
  intro bb hbb
  unfold monthCandidate at hbb ⊢
  rw [discardWeak_of_discard p _ hboom hlt] at hbb ⊢
  exact fallbackScan_some_type p md _ rfl bb hbb

lemma monthCandidate_weak_type (p : Params) (md : List Bar)
    (hweak : ∀ b ∈ md, (detect_boom_range b).is_boom = true →
        (detect_boom_range b).strength < p.min_signal_strength) :
    ∀ bb, (monthCandidate p md).best_buy = some bb →
      (monthCandidate p md).trade_type = some fallbackTypeName := by
  intro bb hbb
  rcases scanBoom_cases md with hs | ⟨b, hbmem, hboom, hs⟩
  · unfold monthCandidate at hbb ⊢
    have hd : discardWeak p (scanBoom md) = scanBoom md := by
      unfold discardWeak
      rw [hs]
      simp [initCandidate]
    rw [hd] at hbb ⊢
    exact fallbackScan_some_type p md _ (by rw [hs]; rfl) bb hbb
  · refine monthCandidate_discard_type p md ?_ ?_ bb hbb
    · rw [hs]
    · rw [hs]
      exact hweak b hbmem hboom

/-! ### Trades produced by one month / by the whole run -/

lemma processMonth_trades_cases (p : Params) (st : RunState) (m : ℕ) :
    (processMonth p st m).trades = st.trades
    ∨ ∃ t, (processMonth p st m).trades = st.trades ++ [t]
        ∧ t.month = m
        ∧ t.trade_type = (monthCandidate p (monthData p m)).trade_type
        ∧ (∃ bb, (monthCandidate p (monthData p m)).best_buy = some bb)
        ∧ t.signal_strength
            = (if (monthCandidate p (monthData p m)).best_signal_strength > 0
               then some (pyRound (monthCandidate p (monthData p m)).best_signal_strength 2)
               else none) := by
  by_cases h : (monthData p m).isEmpty
  · left
    rw [processMonth_empty p st m h]
  · rw [Bool.not_eq_true] at h
    cases hc : (monthCandidate p (monthData p m)).best_buy with
    | none =>
        left
        rw [processMonth_noCand p st m h hc]
    | some bb =>
        by_cases hlt : (st.accumulated_budget + p.monthly_amount)
            * allocationFraction p (monthCandidate p (monthData p m)) < p.min_trade_amount
        · left
          rw [processMonth_skip p st m bb h hc hlt]
        · right
          rw [processMonth_trade p st m bb h hc hlt]
          exact ⟨builtTrade p st m (monthCandidate p (monthData p m)) bb,
            rfl, rfl, rfl, ⟨bb, by first | exact hc | rfl⟩, rfl⟩


lemma foldl_trades_mem (p : Params) (ms : List ℕ) : ∀ (st : RunState) (t : Trade),
    t ∈ (ms.foldl (processMonth p) st).trades →
    t ∈ st.trades
    ∨ ∃ m ∈ ms, t.month = m
        ∧ t.trade_type = (monthCandidate p (monthData p m)).trade_type
        ∧ (∃ bb, (monthCandidate p (monthData p m)).best_buy = some bb) := by
  induction ms with
  | nil =>
      intro st t ht
      left
      exact ht
  | cons m ms ih =>
      intro st t ht
      rcases ih (processMonth p st m) t ht with hin | ⟨m2, hm2, rest⟩
      · rcases processMonth_trades_cases p st m with hsame | ⟨t2, heq, hmonth, htype, hbb, hsig⟩
        · rw [hsame] at hin
          left
          exact hin
        · rw [heq] at hin
          rcases List.mem_append.mp hin with h1 | h2
          · left
            exact h1
          · right
            have ht2 : t = t2 := by simpa using h2
            subst ht2
            exact ⟨m, by simp, hmonth, htype, hbb⟩
      · right
        exact ⟨m2, by simp [hm2], rest⟩

/-- C3: in any run, if every bar of a simulated month that is classified
as a boom has strength strictly below the effective
`min_signal_strength`, then no trade of type `boom_range` is produced for
that month — any trade recorded for it is a fallback trade. -/
theorem boom_threshold_rejection (df : List Bar) (symbol : String) (monthly_amount : ℚ)
    (months : ℕ) (strat : Strategy) (r : RunResult)
    (hr : calculate_smart_dca df symbol monthly_amount months strat = some r) (m : ℕ)
    (hweak : ∀ b ∈ monthBars df m, (detect_boom_range b).is_boom = true →
        (detect_boom_range b).strength < effectiveMinSignal strat) :
    ∀ t ∈ r.trades, t.month = m → t.trade_type = some fallbackTypeName := by
  intro t ht hm
  by_cases hdf : df.isEmpty
  · simp [calculate_smart_dca, hdf] at hr
  · rw [Bool.not_eq_true] at hdf
    simp only [calculate_smart_dca, hdf, Bool.false_eq_true, if_false,
      Option.some.injEq] at hr
    subst hr
    have ht2 : t ∈ ((monthlyDates df months).foldl
        (processMonth (runParams df monthly_amount strat)) initialState).trades := ht
    rcases foldl_trades_mem _ _ _ _ ht2 with h0 | ⟨m2, hm2, hmonth, htype, bb, hbb⟩
    · simp [initialState] at h0
    · have hmm : m2 = m := by rw [← hmonth, hm]
      subst hmm
      rw [htype]
      exact monthCandidate_weak_type (runParams df monthly_amount strat)
        (monthData (runParams df monthly_amount strat) m2) hweak bb hbb

/-- C3 witness: with `min_signal_strength` overridden to 50, a month whose
only boom bar has strength 40 produces only a fallback trade. -/
theorem boom_threshold_rejection_witness :
    ((calculate_smart_dca weakBoomSeries ("BTR") 100 24 override50Strategy).map
      (fun r => r.trades.map (fun t => t.trade_type))) = some [some fallbackTypeName] := by
  cases heq : calculate_smart_dca weakBoomSeries ("BTR") 100 24 override50Strategy with
  | none => exact absurd heq (by decide)
  | some r =>
      have hmonths : r.trades.map (fun t => t.month) = [0] := by
        have h1 := congrArg (Option.map (fun x => x.trades.map (fun t => t.month))) heq
        have h2 : (calculate_smart_dca weakBoomSeries ("BTR") 100 24 override50Strategy).map
            (fun x => x.trades.map (fun t => t.month)) = some [0] := by decide
        rw [h2] at h1
        simpa using h1.symm
      obtain ⟨t, htr⟩ : ∃ t, r.trades = [t] := by
        cases htr : r.trades with
        | nil => rw [htr] at hmonths; simp at hmonths
        | cons a l =>
            cases l with
            | nil => exact ⟨a, rfl⟩
            | cons b l2 => rw [htr] at hmonths; simp at hmonths
      have hm0 : t.month = 0 := by
        rw [htr] at hmonths
        simpa using hmonths
      have htype := boom_threshold_rejection _ _ _ _ _ _ heq 0 (by decide) t
        (by simp [htr]) hm0
      simp only [Option.map_some', Option.some.injEq, htr, List.map_cons, List.map_nil]
      rw [htype]

/-- C4 counterexample: under the conservative profile a 40-strength boom
bar is discarded (40 < 55), the month falls back to a dip trade, yet the
recorded fallback trade carries `signal_strength = 40` from the discarded
boom candidate instead of the `None` the claim requires. -/
theorem discarded_boom_counterexample :
    ((calculate_smart_dca leakSeries ("LEAK") 100 24 conservativeStrategy).map
      (fun r => r.trades.map (fun t => (t.trade_type, t.signal_strength))))
      = some [(some fallbackTypeName, some 40)]
    ∧ some (40 : ℚ) ≠ (none : Option ℚ) :=
  ⟨by decide, by decide⟩

/-- C4 (corrected): when a month's boom candidate is discarded for being
below the effective `min_signal_strength`, the buy-day selection proceeds
as if no boom candidate existed (the executed trade, if any, is a
fallback trade), but the discarded candidate's strength is not cleared:
the fallback trade recorded that month carries the discarded boom
strength (rounded to 2 decimals) in its `signal_strength` field rather
than `None`. -/
theorem discarded_boom_strength_leak (p : Params) (st : RunState) (m : ℕ)
    (hboom : (scanBoom (monthData p m)).trade_type = some boomTypeName)
    (hlt : (scanBoom (monthData p m)).best_signal_strength < p.min_signal_strength) :
    ∀ t, (processMonth p st m).trades = st.trades ++ [t] →
      t.trade_type = some fallbackTypeName
      ∧ t.signal_strength
          = some (pyRound (scanBoom (monthData p m)).best_signal_strength 2) := by
  intro t ht
  rcases processMonth_trades_cases p st m with hsame | ⟨t2, heq, hmonth, htype, ⟨bb, hbb⟩, hsig⟩
  · rw [hsame] at ht
    exfalso
    have hlen := congrArg List.length ht
    simp at hlen
  · have ht2 : t2 = t := by
      have := heq.symm.trans ht
      simpa using this
    subst ht2
    constructor
    · rw [htype]
      exact monthCandidate_discard_type p _ hboom hlt bb hbb
    · have hpos : (scanBoom (monthData p m)).best_signal_strength > 0 := by
        rcases scanBoom_cases (monthData p m) with hs | ⟨b, _, hb, hs⟩
        · rw [hs] at hboom
          simp [initCandidate] at hboom
        · have hge := detect_isBoom_ge b hb
          rw [hs]
          dsimp only
          linarith
      rw [hsig, monthCandidate_strength, if_pos hpos]

/-- C4 witness: the amended statement evaluated at the concrete
discarded-boom month. -/
theorem discarded_boom_strength_leak_witness :
    ((processMonth leakParams initialState 0).trades.map
      (fun t => (t.trade_type, t.signal_strength)))
      = [(some fallbackTypeName, some 40)] := by
  have ht : (processMonth leakParams initialState 0).trades
      = initialState.trades ++ [(processMonth leakParams initialState 0).trades.headI] := by
    decide
  have h := discarded_boom_strength_leak leakParams initialState 0 (by decide) (by decide)
    ((processMonth leakParams initialState 0).trades.headI) ht
  have hval : pyRound (scanBoom (monthData leakParams 0)).best_signal_strength 2 = 40 := by
    decide
  rw [ht]
  have hnil : initialState.trades = ([] : List Trade) := rfl
  rw [hnil, List.nil_append, List.map_cons, List.map_nil, h.1, h.2, hval]

lemma pyRound_zero (d : ℕ) : pyRound 0 d = 0 := by
  have h0 : ((0 : ℤ) : ℚ) = 0 := by norm_num
  have h := pyRoundInt_intCast 0
  rw [h0] at h
  simp [pyRound, h]

/-- C9: after the month loop the aggregator computes
`current_value = total_shares * current_price` (`current_price` being the
last close of the sorted series), `profit_loss = current_value -
total_invested`, `return_percent = profit_loss / total_invested * 100`
with the division guarded (exactly 0 when nothing was invested), and
`buy_rate = months_bought / number_of_simulated_months` with the division
guarded (exactly 0 when no month was simulated) — all at the payload's
rounding precision. -/
theorem result_aggregation (df : List Bar) (symbol : String) (monthly_amount : ℚ)
    (months : ℕ) (strat : Strategy) (r : RunResult)
    (hr : calculate_smart_dca df symbol monthly_amount months strat = some r) :
    r.current_price = pyRound (lastClose df) 4
    ∧ r.current_value
        = pyRound ((runFinalState df monthly_amount months strat).total_shares
            * lastClose df) 2
    ∧ r.profit_loss
        = pyRound ((runFinalState df monthly_amount months strat).total_shares * lastClose df
            - (runFinalState df monthly_amount months strat).total_invested) 2
    ∧ ((runFinalState df monthly_amount months strat).total_invested = 0 →
        r.return_percent = 0)
    ∧ (0 < (runFinalState df monthly_amount months strat).total_invested →
        r.return_percent = pyRound
          (((runFinalState df monthly_amount months strat).total_shares * lastClose df
              - (runFinalState df monthly_amount months strat).total_invested)
            / (runFinalState df monthly_amount months strat).total_invested * 100) 2)
    ∧ (monthlyDates df months = [] → r.buy_rate = 0)
    ∧ (monthlyDates df months ≠ [] →
        r.buy_rate = pyRound
          (((runFinalState df monthly_amount months strat).months_bought : ℚ)
            / ((monthlyDates df months).length : ℚ)) 4) := by
  by_cases hdf : df.isEmpty
  · simp [calculate_smart_dca, hdf] at hr
  · rw [Bool.not_eq_true] at hdf
    simp only [calculate_smart_dca, hdf, Bool.false_eq_true, if_false,
      Option.some.injEq] at hr
    subst hr
    refine ⟨rfl, rfl, rfl, ?_, ?_, ?_, ?_⟩
    · intro h0
      show pyRound (if (runFinalState df monthly_amount months strat).total_invested > 0
        then _ else 0) 2 = 0
      rw [if_neg (by rw [h0]; exact lt_irrefl 0), pyRound_zero]
    · intro hpos
      show pyRound (if (runFinalState df monthly_amount months strat).total_invested > 0
        then _ else 0) 2 = _
      rw [if_pos hpos]
    · intro hnil
      show (if (monthlyDates df months).isEmpty then (0 : ℚ) else _) = 0
      rw [if_pos (by rw [hnil]; rfl)]
    · intro hnil
      show (if (monthlyDates df months).isEmpty then (0 : ℚ) else _) = _
      rw [if_neg (by simpa [List.isEmpty_iff] using hnil)]

/-- C9 witness: a run with no trades reports return 0 and buy rate 0
without dividing by zero. -/
theorem result_aggregation_witness :
    ((calculate_smart_dca quietSeries ("AGG") 100 24 ⟨none, none, none, none, none⟩).map
      (fun r => (r.return_percent, r.buy_rate))) = some (0, 0) := by
  cases heq : calculate_smart_dca quietSeries ("AGG") 100 24 ⟨none, none, none, none, none⟩ with
  | none => exact absurd heq (by decide)
  | some r =>
      have h := result_aggregation _ _ _ _ _ _ heq
      have h4 := h.2.2.2.1 (by decide)
      have h7 := h.2.2.2.2.2.2 (by decide)
      have hval : pyRound
          (((runFinalState quietSeries 100 24 ⟨none, none, none, none, none⟩).months_bought : ℚ)
            / ((monthlyDates quietSeries 24).length : ℚ)) 4 = 0 := by decide
      rw [hval] at h7
      simp only [Option.map_some', Option.some.injEq, h4, h7]

/-- C6: the allocation-sizing code computes exactly the fraction written
in the spec — in tiered mode a boom trade gets
`clamp (tiered_base + tiered_bonus * normalized) [tiered_floor, 1]` with
`normalized = clamp ((strength - min) / (100 - min)) [0, 1]` forced to 0
when `min_signal_strength >= 100`, a tiered fallback trade gets
`fallback_fraction`, and full (or any non-tiered) mode always gets 1 —
and every executed trade invests exactly the accumulated budget times
that fraction, at the payload's 2-decimal rounding. -/
theorem tiered_allocation :
    (∀ (p : Params) (c : Candidate),
      allocationFraction p c =
        specAllocationFraction p.allocation_mode p.profile_cfg p.min_signal_strength
          c.best_signal_strength (decide (c.trade_type = some boomTypeName)))
    ∧ (∀ (p : Params) (st : RunState) (m : ℕ) (t : Trade),
        (processMonth p st m).trades = st.trades ++ [t] →
        t.amount_invested = pyRound ((st.accumulated_budget + p.monthly_amount)
          * allocationFraction p (monthCandidate p (monthData p m))) 2) := by
  constructor
  · intro p c
    by_cases hb : c.trade_type = some boomTypeName <;>
      by_cases hm : p.allocation_mode = tieredModeName <;>
      rcases lt_or_le p.min_signal_strength 100 with hs | hs <;>
      first
        | simp [allocationFraction, specAllocationFraction, hb, hm, hs, not_le.mpr hs]
        | simp [allocationFraction, specAllocationFraction, hb, hm, hs, not_lt.mpr hs]
  · intro p st m t ht
    by_cases h : (monthData p m).isEmpty
    · rw [processMonth_empty p st m h] at ht
      exfalso
      have hlen := congrArg List.length ht
      simp at hlen
    · rw [Bool.not_eq_true] at h
      cases hc : (monthCandidate p (monthData p m)).best_buy with
      | none =>
          rw [processMonth_noCand p st m h hc] at ht
          exfalso
          have hlen := congrArg List.length ht
          simp at hlen
      | some bb =>
          by_cases hlt : (st.accumulated_budget + p.monthly_amount)
              * allocationFraction p (monthCandidate p (monthData p m)) < p.min_trade_amount
          · rw [processMonth_skip p st m bb h hc hlt] at ht
            exfalso
            have hlen := congrArg List.length ht
            simp at hlen
          · rw [processMonth_trade p st m bb h hc hlt] at ht
            have ht2 : builtTrade p st m (monthCandidate p (monthData p m)) bb = t := by
              have hx : st.trades ++ [builtTrade p st m (monthCandidate p (monthData p m)) bb]
                  = st.trades ++ [t] := ht
              simpa using hx
            rw [← ht2]
            show pyRound (pyRound ((st.accumulated_budget + p.monthly_amount)
              * allocationFraction p (monthCandidate p (monthData p m))) 2) 2 = _
            exact pyRound2_of_onGrid (onGrid_pyRound2 _)

/-- C6 witness: a tiered fallback month invests the fallback fraction
(one half) of the accumulated budget. -/
theorem tiered_allocation_witness :
    ((processMonth tieredFallbackParams initialState 0).trades.map Trade.amount_invested)
      = [pyRound ((initialState.accumulated_budget + tieredFallbackParams.monthly_amount)
          * allocationFraction tieredFallbackParams
              (monthCandidate tieredFallbackParams (monthData tieredFallbackParams 0))) 2]
    ∧ pyRound ((initialState.accumulated_budget + tieredFallbackParams.monthly_amount)
        * allocationFraction tieredFallbackParams
            (monthCandidate tieredFallbackParams (monthData tieredFallbackParams 0))) 2
      = 50 := by
  have ht : (processMonth tieredFallbackParams initialState 0).trades
      = initialState.trades
        ++ [(processMonth tieredFallbackParams initialState 0).trades.headI] := by
    decide
  have h := tiered_allocation.2 tieredFallbackParams initialState 0
    ((processMonth tieredFallbackParams initialState 0).trades.headI) ht
  constructor
  · rw [ht]
    have hnil : initialState.trades = ([] : List Trade) := rfl
    rw [hnil, List.nil_append, List.map_cons, List.map_nil, h]
  · decide

end

end DCA
